import Mathlib

/-!
Shallow embedding of the kube-opex-analytics backend (backend.py) and
verification of its specification claims.

Modelling conventions:
* Python floats are modelled as rationals (ℚ); `round(x, 6)` is modelled by
  `round6` (round to nearest at 6 decimal places).
* Python dictionaries are modelled as insertion-ordered association lists;
  a bare `d[k]` lookup that can raise `KeyError` is modelled with `Option` /
  `Except`.
* Python `int(s)` is modelled by `pyInt` (digits with an optional minus sign);
  a `ValueError` raise is an `Except.error "ValueError"` value.
-/

/-- `round(x, 6)` of backend.py (KOA_CONFIG.db_round_decimals = 6). -/
def round6 (q : ℚ) : ℚ := (round (q * 1000000) : ℤ) / 1000000

theorem round6_close (q : ℚ) : |round6 q - q| ≤ 1 / 2000000 := by
  have h := abs_sub_round (q * 1000000)
  rw [abs_sub_comm] at h
  have hq : round6 q - q = ((round (q * 1000000) : ℤ) - q * 1000000) / 1000000 := by
    unfold round6; ring
  rw [hq, abs_div]
  have h6 : |(1000000 : ℚ)| = 1000000 := by norm_num
  rw [h6]
  rw [div_le_iff₀ (by norm_num : (0:ℚ) < 1000000)]
  calc |((round (q * 1000000) : ℤ) : ℚ) - q * 1000000| ≤ 1 / 2 := h
    _ = 1 / 2000000 * 1000000 := by norm_num

theorem round6_idem (q : ℚ) : round6 (round6 q) = round6 q := by
  unfold round6
  have : ((round (q * 1000000) : ℤ) : ℚ) / 1000000 * 1000000 = ((round (q * 1000000) : ℤ) : ℚ) := by
    field_simp
  rw [this, round_intCast]

/-- Equality of `Except` values is decidable when it is on both sides. -/
instance {ε α : Type} [DecidableEq ε] [DecidableEq α] : DecidableEq (Except ε α) := by
  intro a b
  cases a <;> cases b
  case error.error e f => exact decidable_of_iff (e = f) (by simp)
  case error.ok e v => exact .isFalse (by simp)
  case ok.error v e => exact .isFalse (by simp)
  case ok.ok v w => exact decidable_of_iff (v = w) (by simp)

/-- Accumulator run of Python `int(...)` over decimal digit characters. -/
def digitsValAux : List Char → ℕ → Option ℕ
  | [], acc => some acc
  | c :: rest, acc =>
      if c.isDigit then digitsValAux rest (10 * acc + (c.toNat - 48)) else none

/-- Python `int(s)`: optional minus sign followed by decimal digits;
`none` models a `ValueError` raise. -/
def pyInt (cs : List Char) : Option ℤ :=
  match cs with
  | [] => none
  | c :: rest =>
      if c = Char.ofNat 45 then
        match rest with
        | [] => none
        | _ => (digitsValAux rest 0).map (fun n => -(n : ℤ))
      else (digitsValAux cs 0).map (fun n => (n : ℤ))

/-- `int(s)` lifted into the error monad: a parse failure is the
`ValueError` raised by Python. -/
def pyIntE (cs : List Char) : Except String ℚ :=
  match pyInt cs with
  | some v => .ok (v : ℚ)
  | none => .error "ValueError"

/-- Last `n` characters of a Python string slice `s[len-n:]`
(negative start clamps to 0, as in Python). -/
def lastChars (cs : List Char) (n : ℕ) : List Char := cs.drop (cs.length - n)

/-- Python slice `s[0:len-n]` (negative end clamps to 0). -/
def dropLastChars (cs : List Char) (n : ℕ) : List Char := cs.take (cs.length - n)

/-- `K8sUsage.decode_memory_capacity` (backend.py lines 241-266): a
two-character suffix ending in `i` selects a decimal power-of-ten factor,
an unknown such suffix yields 0, no suffix means base units. -/
def decode_memory_capacity (cap_input : String) : Except String ℚ :=
  let cs := cap_input.data
  let cap_unit := if lastChars cs 1 = ['i'] then lastChars cs 2 else []
  let cap_value := if lastChars cs 1 = ['i'] then dropLastChars cs 2 else cs
  if cap_unit = [] then pyIntE cap_value
  else if cap_unit = ['K', 'i'] then (pyIntE cap_value).map (fun v => 1000 * v)
  else if cap_unit = ['M', 'i'] then (pyIntE cap_value).map (fun v => 1000000 * v)
  else if cap_unit = ['G', 'i'] then (pyIntE cap_value).map (fun v => 1000000000 * v)
  else if cap_unit = ['T', 'i'] then (pyIntE cap_value).map (fun v => 1000000000000 * v)
  else if cap_unit = ['P', 'i'] then (pyIntE cap_value).map (fun v => 1000000000000000 * v)
  else if cap_unit = ['E', 'i'] then (pyIntE cap_value).map (fun v => 1000000000000000000 * v)
  else .ok 0

/-- `K8sUsage.decode_cpu_capacity` (backend.py lines 268-278): suffixes
n/u/m scale by 1e-9/1e-6/1e-3, otherwise the whole input is parsed as an
integer number of cores. -/
def decode_cpu_capacity (cap_input : String) : Except String ℚ :=
  let cs := cap_input.data
  let cap_unit := lastChars cs 1
  let cap_value := dropLastChars cs 1
  if cap_unit = ['n'] then (pyIntE cap_value).map (fun v => v / 1000000000)
  else if cap_unit = ['u'] then (pyIntE cap_value).map (fun v => v / 1000000)
  else if cap_unit = ['m'] then (pyIntE cap_value).map (fun v => v / 1000)
  else pyIntE cs

/-- C4: the quantity decoders hit the specified concrete values: Ki/Mi/Gi/Ti/Pi/Ei
scale by the decimal constants 1e3..1e18 (1Ki is 1000, not 1024), an unknown
suffix ending in i yields 0, and cpu suffixes n/u/m scale by 1e-9/1e-6/1e-3
with no suffix meaning whole cores. -/
theorem c4_decoders :
    decode_memory_capacity "128Mi" = .ok 128000000 ∧
    decode_memory_capacity "1Ki" = .ok 1000 ∧
    (1000 : ℚ) ≠ 1024 ∧
    decode_memory_capacity "1Gi" = .ok 1000000000 ∧
    decode_memory_capacity "1Ti" = .ok 1000000000000 ∧
    decode_memory_capacity "1Pi" = .ok 1000000000000000 ∧
    decode_memory_capacity "1Ei" = .ok 1000000000000000000 ∧
    decode_memory_capacity "1Xi" = .ok 0 ∧
    decode_cpu_capacity "500m" = .ok (1 / 2) ∧
    decode_cpu_capacity "250n" = .ok (1 / 4000000) ∧
    decode_cpu_capacity "2" = .ok 2 := by
  refine ⟨?_, ?_, by norm_num, ?_, ?_, ?_, ?_, ?_, ?_, ?_, ?_⟩ <;>
    (simp +decide [decode_memory_capacity, decode_cpu_capacity, pyIntE, pyInt, digitsValAux,
       lastChars, dropLastChars, Except.map] <;> norm_num)

/-! ## Startup validation (backend.py lines 668-676) -/

/-- `Config.billing_hourly_rate` (backend.py lines 59-62): the environment
value when it parses as a float, and -1.0 when it is absent or malformed. -/
def billingRateOf (env : Option ℚ) : ℚ :=
  match env with
  | some r => r
  | none => -1

/-- Module-level startup validation (backend.py lines 669-671): with
CHARGE_BACK and a non-positive rate the process exits before the puller and
exporter threads are started; otherwise both threads start. -/
def startup_validation (cost_model : String) (env : Option ℚ) : Except String Unit :=
  if cost_model = "CHARGE_BACK" ∧ billingRateOf env ≤ 0 then
    .error "invalid billing hourly rate for CHARGE_BACK cost allocation"
  else .ok ()

/-- C9: startup succeeds (both loops start) exactly when the cost model is not
Charge-Back, or the billing hourly rate is present and strictly positive; an
absent rate is read as -1.0 and therefore fatal under Charge-Back. -/
theorem c9_startup_validation (cost_model : String) (env : Option ℚ) :
    startup_validation cost_model env = .ok () ↔
      (cost_model ≠ "CHARGE_BACK" ∨ ∃ r, env = some r ∧ 0 < r) := by
  constructor
  · intro h
    by_cases hcm : cost_model = "CHARGE_BACK"
    · right
      cases env with
      | none =>
        exfalso
        unfold startup_validation billingRateOf at h
        rw [if_pos ⟨hcm, by norm_num⟩] at h
        exact Except.noConfusion h
      | some r =>
        refine ⟨r, rfl, ?_⟩
        by_contra hr
        push_neg at hr
        unfold startup_validation billingRateOf at h
        rw [if_pos ⟨hcm, hr⟩] at h
        exact Except.noConfusion h
    · left; exact hcm
  · intro h
    unfold startup_validation
    rw [if_neg]
    rintro ⟨hcm, hle⟩
    rcases h with h | ⟨r, hr, hpos⟩
    · exact h hcm
    · rw [hr] at hle
      unfold billingRateOf at hle
      simp only at hle
      linarith

/-! ## Node health-condition scanning (backend.py lines 308-328) -/

/-- One entry of a node's `status.conditions` list. -/
structure CondItem where
  ctype : String
  cstatus : String
  cmessage : String
  deriving DecidableEq, Repr

/-- The condition-scanning loop of `K8sUsage.extract_nodes` (backend.py lines
308-327): for each list entry the message is recorded, then the entry is
checked against the six recognized types; a true match sets the state and
breaks. The arguments are the running state and message (Node.__init__ sets
both to the empty string). -/
def scanNodeConds : List CondItem → String → String → String × String
  | [], st, msg => (st, msg)
  | c :: rest, st, _ =>
    if c.ctype = "Ready" ∧ c.cstatus = "True" then ("Ready", c.cmessage)
    else if c.ctype = "KernelDeadlock" ∧ c.cstatus = "True" then ("KernelDeadlock", c.cmessage)
    else if c.ctype = "NetworkUnavailable" ∧ c.cstatus = "True" then ("NetworkUnavailable", c.cmessage)
    else if c.ctype = "OutOfDisk" ∧ c.cstatus = "True" then ("OutOfDisk", c.cmessage)
    else if c.ctype = "MemoryPressure" ∧ c.cstatus = "True" then ("MemoryPressure", c.cmessage)
    else if c.ctype = "DiskPressure" ∧ c.cstatus = "True" then ("DiskPressure", c.cmessage)
    else scanNodeConds rest st c.cmessage

/-- A condition entry that the loop accepts: status True and one of the six
recognized types. -/
def healthMatch (c : CondItem) : Bool :=
  c.cstatus == "True" &&
    (c.ctype == "Ready" || c.ctype == "KernelDeadlock" || c.ctype == "NetworkUnavailable" ||
     c.ctype == "OutOfDisk" || c.ctype == "MemoryPressure" || c.ctype == "DiskPressure")

/-- Selection as the amended claim words it: the type of the first true
recognized condition in list order, else the initial state. -/
def firstTrueRecognized : List CondItem → String → String
  | [], st => st
  | c :: rest, st => if healthMatch c then c.ctype else firstTrueRecognized rest st

/-- C6 counterexample: with conditions [MemoryPressure True, Ready True] the
code resolves to MemoryPressure, not Ready as the priority-over-list-order
claim demands; and with no true recognized condition the state stays the
empty string, not "Unknown". -/
theorem c6_counterexample :
    (scanNodeConds [⟨"MemoryPressure", "True", "m1"⟩, ⟨"Ready", "True", "m2"⟩] "" "").1 =
      "MemoryPressure" ∧
    ("MemoryPressure" : String) ≠ "Ready" ∧
    (scanNodeConds [⟨"SomeOtherCond", "True", "m3"⟩, ⟨"Ready", "False", "m4"⟩] "" "").1 = "" ∧
    ("" : String) ≠ "Unknown" := by
  decide

/-- C6 amended: the health state selected is the type of the first condition
in LIST order whose type is recognized and whose status is True (so
[KernelDeadlock True, Ready True] still resolves to KernelDeadlock, but
[MemoryPressure True, Ready True] resolves to MemoryPressure); when no
condition matches, the state keeps its initial value, which Node.__init__
sets to the empty string, not "Unknown". -/
theorem c6_health_state_amended (conds : List CondItem) (st msg : String) :
    (scanNodeConds conds st msg).1 = firstTrueRecognized conds st := by
  induction conds generalizing msg with
  | nil => rfl
  | cons c rest ih =>
    simp only [scanNodeConds, firstTrueRecognized]
    by_cases hm : healthMatch c = true
    · simp only [hm, if_true]
      unfold healthMatch at hm
      simp only [Bool.and_eq_true, Bool.or_eq_true, beq_iff_eq] at hm
      obtain ⟨hs, ht⟩ := hm
      rcases ht with ((((h | h) | h) | h) | h) | h <;> simp [h, hs]
    · simp only [Bool.not_eq_true] at hm
      simp only [hm, Bool.false_eq_true, if_false]
      unfold healthMatch at hm
      simp only [Bool.and_eq_false_iff, Bool.or_eq_false_iff, beq_eq_false_iff_ne, ne_eq] at hm
      rcases hm with hs | ⟨⟨⟨⟨⟨h1, h2⟩, h3⟩, h4⟩, h5⟩, h6⟩
      · rw [if_neg (fun hh => hs hh.2), if_neg (fun hh => hs hh.2), if_neg (fun hh => hs hh.2),
            if_neg (fun hh => hs hh.2), if_neg (fun hh => hs hh.2), if_neg (fun hh => hs hh.2)]
        exact ih _
      · rw [if_neg (fun hh => h1 hh.1), if_neg (fun hh => h2 hh.1), if_neg (fun hh => h3 hh.1),
            if_neg (fun hh => h4 hh.1), if_neg (fun hh => h5 hh.1), if_neg (fun hh => h6 hh.1)]
        exact ih _

/-! ## Python dictionaries as insertion-ordered association lists -/

/-- `d.get(k)` / guarded `d[k]`: the first binding of `k`. -/
def lookupA {α : Type} (k : String) : List (String × α) → Option α
  | [] => none
  | e :: rest => if e.1 = k then some e.2 else lookupA k rest

/-- Mutation `d[k] = v` of an existing binding (keys unchanged). -/
def updateA {α : Type} (k : String) (v : α) : List (String × α) → List (String × α)
  | [] => []
  | e :: rest => if e.1 = k then (k, v) :: rest else e :: updateA k v rest

/-- Python `d[k] = v`: overwrite in place when present, else append
(insertion order preserved). -/
def insertA {α : Type} (k : String) (v : α) (l : List (String × α)) : List (String × α) :=
  if (lookupA k l).isSome then updateA k v l else l ++ [(k, v)]

theorem lookupA_updateA_isSome {α : Type} (k k2 : String) (v : α) (l : List (String × α)) :
    (lookupA k (updateA k2 v l)).isSome = (lookupA k l).isSome := by
  induction l with
  | nil => rfl
  | cons e rest ih =>
    simp only [updateA]
    by_cases h2 : e.1 = k2
    · rw [if_pos h2]
      simp only [lookupA]
      by_cases hk : e.1 = k
      · rw [if_pos (h2 ▸ hk), if_pos hk]
        rfl
      · rw [if_neg (fun hh : k2 = k => hk (h2 ▸ hh)), if_neg hk]
    · rw [if_neg h2]
      simp only [lookupA]
      by_cases hk : e.1 = k
      · rw [if_pos hk, if_pos hk]
      · rw [if_neg hk, if_neg hk]
        exact ih

theorem lookupA_updateA_eq {α : Type} (k : String) (v : α) (l : List (String × α))
    (h : (lookupA k l).isSome = true) : lookupA k (updateA k v l) = some v := by
  induction l with
  | nil => simp [lookupA] at h
  | cons e rest ih =>
    simp only [updateA]
    by_cases hk : e.1 = k
    · rw [if_pos hk]
      simp [lookupA]
    · rw [if_neg hk]
      simp only [lookupA, if_neg hk]
      simp only [lookupA, if_neg hk] at h
      exact ih h

theorem lookupA_updateA_ne {α : Type} (k k2 : String) (v : α) (l : List (String × α))
    (h : k ≠ k2) : lookupA k (updateA k2 v l) = lookupA k l := by
  induction l with
  | nil => rfl
  | cons e rest ih =>
    simp only [updateA]
    by_cases h2 : e.1 = k2
    · rw [if_pos h2]
      simp only [lookupA]
      rw [if_neg (fun hh : k2 = k => h hh.symm), if_neg (fun hh : e.1 = k => h (h2 ▸ hh : k2 = k).symm)]
    · rw [if_neg h2]
      simp only [lookupA]
      by_cases hk : e.1 = k
      · rw [if_pos hk, if_pos hk]
      · rw [if_neg hk, if_neg hk]
        exact ih

/-! ## Node extraction (backend.py lines 290-328) -/

/-- The `Node` object of backend.py (lines 159-173) after extraction;
`podsRunning` holds pod keys. -/
structure NodeE where
  name : String
  id : String
  state : String
  message : String
  cpuCapacity : ℚ
  cpuAllocatable : ℚ
  cpuUsage : ℚ
  memCapacity : ℚ
  memAllocatable : ℚ
  memUsage : ℚ
  containerRuntime : String
  podsRunning : List String
  podsNotRunning : List String
  deriving DecidableEq, Repr

/-- One item of the `/api/v1/nodes` listing, restricted to the fields the
code reads. -/
structure NodeItem where
  name : String
  uid : String
  capacityCpu : String
  allocatableCpu : String
  capacityMemory : String
  allocatableMemory : String
  containerRuntimeVersion : String
  conditions : List CondItem
  deriving DecidableEq, Repr

/-- The per-item body of `K8sUsage.extract_nodes` (backend.py lines 296-328):
the four quantity decodes happen in source order and an uncaught decode
error aborts the whole extraction (there is no try/except around them). -/
def extractOneNode (item : NodeItem) : Except String NodeE :=
  match decode_cpu_capacity item.capacityCpu with
  | .error e => .error e
  | .ok cpuCap =>
    match decode_cpu_capacity item.allocatableCpu with
    | .error e => .error e
    | .ok cpuAlloc =>
      match decode_memory_capacity item.capacityMemory with
      | .error e => .error e
      | .ok memCap =>
        match decode_memory_capacity item.allocatableMemory with
        | .error e => .error e
        | .ok memAlloc =>
          let sm := scanNodeConds item.conditions "" ""
          .ok { name := item.name, id := item.uid, state := sm.1, message := sm.2,
                cpuCapacity := cpuCap, cpuAllocatable := cpuAlloc, cpuUsage := 0,
                memCapacity := memCap, memAllocatable := memAlloc, memUsage := 0,
                containerRuntime := item.containerRuntimeVersion,
                podsRunning := [], podsNotRunning := [] }

/-- `K8sUsage.extract_nodes` over the item list, threading the `self.nodes`
dictionary. -/
def extract_nodes (items : List NodeItem) (nodes : List (String × NodeE)) :
    Except String (List (String × NodeE)) :=
  match items with
  | [] => .ok nodes
  | item :: rest =>
    match extractOneNode item with
    | .error e => .error e
    | .ok node => extract_nodes rest (insertA node.name node nodes)

/-- A node item whose cpu capacity quantity has a non-numeric payload. -/
def badCpuNodeItem : NodeItem :=
  { name := "node1", uid := "u1", capacityCpu := "abc", allocatableCpu := "2",
    capacityMemory := "1Ki", allocatableMemory := "1Ki",
    containerRuntimeVersion := "docker", conditions := [] }

/-- A well-formed node item. -/
def goodNodeItem : NodeItem :=
  { name := "node0", uid := "u0", capacityCpu := "2", allocatableCpu := "1900m",
    capacityMemory := "8Gi", allocatableMemory := "7Gi",
    containerRuntimeVersion := "docker", conditions := [⟨"Ready", "True", "ok"⟩] }

/-- A node item whose cpu capacity is "xm" (suffix m, non-numeric payload). -/
def xmNodeItem : NodeItem :=
  { name := "node2", uid := "u2", capacityCpu := "xm", allocatableCpu := "2",
    capacityMemory := "1Ki", allocatableMemory := "1Ki",
    containerRuntimeVersion := "docker", conditions := [] }

/-- C5 counterexample: a malformed cpu quantity makes `decode_cpu_capacity`
raise ValueError, and `extract_nodes` has no handler, so the whole extraction
step returns the error: the field is NOT degraded to zero and the step does
NOT proceed, contrary to the claim. -/
theorem c5_counterexample :
    decode_cpu_capacity "abc" = .error "ValueError" ∧
    decode_cpu_capacity "xm" = .error "ValueError" ∧
    extract_nodes [badCpuNodeItem] [] = .error "ValueError" := by
  decide

/-- C5 amended: decodeCpu fails with a ValueError on a non-numeric payload,
and during snapshot construction that error propagates out of the node
extraction step, aborting it (no field is degraded to zero). -/
theorem c5_decode_error_amended (items : List NodeItem) (nodes : List (String × NodeE))
    (it : NodeItem) (hmem : it ∈ items)
    (herr : ∃ m, decode_cpu_capacity it.capacityCpu = .error m) :
    ∃ m, extract_nodes items nodes = .error m := by
  induction items generalizing nodes with
  | nil => cases hmem
  | cons a rest ih =>
    rcases herr with ⟨m, hm⟩
    rcases List.mem_cons.mp hmem with rfl | hmem2
    · refine ⟨m, ?_⟩
      simp only [extract_nodes, extractOneNode, hm]
    · simp only [extract_nodes]
      cases hx : extractOneNode a with
      | error e => exact ⟨e, rfl⟩
      | ok node => exact ih _ hmem2

/-- C5 witness: a malformed item in the middle of the listing aborts the
whole extraction. -/
theorem c5_witness : ∃ m, extract_nodes [goodNodeItem, xmNodeItem] [] = .error m :=
  c5_decode_error_amended [goodNodeItem, xmNodeItem] [] xmNodeItem (by decide)
    ⟨"ValueError", by decide⟩

/-! ## Pod state and namespace-usage consolidation (backend.py lines 374-420) -/

/-- The per-namespace accumulator `ResourceUsage` (backend.py lines 185-188). -/
structure ResourceUsage where
  cpuUsage : ℚ
  memUsage : ℚ
  deriving DecidableEq, Repr

/-- The `Pod` object (backend.py lines 175-182) after `extract_pods` and
`extract_pod_metrics`: `usage` is `some (cpu, mem)` exactly when
`extract_pod_metrics` attached the `cpuUsage`/`memUsage` attributes (the
`hasattr` checks of `consolidate_ns_usage`); `nodeName` is `none` for a pod
left PodNotScheduled (backend.py line 377 assigns Python `None`). -/
structure PodE where
  name : String
  ns : String
  id : String
  nodeName : Option String
  phase : String
  state : String
  usage : Option (ℚ × ℚ)
  deriving DecidableEq, Repr

/-- The mutable fields of `K8sUsage` (backend.py lines 227-239) that
consolidation reads and writes. -/
structure K8sUsageState where
  nodes : List (String × NodeE)
  pods : List PodE
  nsResUsage : List (String × ResourceUsage)
  cpuUsedByPods : ℚ
  memUsedByPods : ℚ
  cpuCapacity : ℚ
  memCapacity : ℚ
  cpuAllocatable : ℚ
  memAllocatable : ℚ
  deriving DecidableEq, Repr

/-- The pod loop of `K8sUsage.consolidate_ns_usage` (backend.py lines
402-408).  Each unguarded Python dict access (`self.nsResUsage[pod.namespace]`,
`self.nodes[pod.nodeName]`) is modelled by a lookup whose failure stops the
loop with the state mutated so far and a KeyError marker (a raised exception
propagates out of the method). -/
def consolidatePods : List PodE → K8sUsageState → K8sUsageState × Option String
  | [], s => (s, none)
  | p :: rest, s =>
    match p.usage with
    | none => consolidatePods rest s
    | some u =>
      let s1 := { s with cpuUsedByPods := s.cpuUsedByPods + u.1 }
      match lookupA p.ns s1.nsResUsage with
      | none => (s1, some "KeyError")
      | some ru =>
        let s2 := { s1 with
          nsResUsage := updateA p.ns ⟨ru.cpuUsage + u.1, ru.memUsage + u.2⟩ s1.nsResUsage,
          memUsedByPods := s1.memUsedByPods + u.2 }
        match p.nodeName with
        | none => (s2, some "KeyError")
        | some nn =>
          match lookupA nn s2.nodes with
          | none => (s2, some "KeyError")
          | some nd =>
            consolidatePods rest
              { s2 with nodes :=
                  updateA nn { nd with podsRunning := nd.podsRunning ++ [p.name] } s2.nodes }

/-- `K8sUsage.consolidate_ns_usage` (backend.py lines 399-420): zero the
used-by-pods totals, run the pod loop, and only if it completes add every
node's capacity and allocatable into the cluster totals (the node loops run
after the pod loop, so a KeyError in the pod loop leaves them unrun). -/
def consolidate_ns_usage (s : K8sUsageState) : K8sUsageState × Option String :=
  let s0 := { s with cpuUsedByPods := 0, memUsedByPods := 0 }
  match consolidatePods s0.pods s0 with
  | (s1, some e) => (s1, some e)
  | (s1, none) =>
    ({ s1 with
        cpuCapacity := s1.cpuCapacity + ((s1.nodes.map fun e => e.2.cpuCapacity).sum),
        memCapacity := s1.memCapacity + ((s1.nodes.map fun e => e.2.memCapacity).sum),
        cpuAllocatable := s1.cpuAllocatable + ((s1.nodes.map fun e => e.2.cpuAllocatable).sum),
        memAllocatable := s1.memAllocatable + ((s1.nodes.map fun e => e.2.memAllocatable).sum) },
      none)

/-- Both dict lookups of the pod loop succeed for this pod. -/
def podMapsFound (s : K8sUsageState) (p : PodE) : Bool :=
  (lookupA p.ns s.nsResUsage).isSome &&
    (match p.nodeName with
     | some nn => (lookupA nn s.nodes).isSome
     | none => false)

/-- A metrics-reporting pod on which the pod loop raises KeyError. -/
def podBad (s : K8sUsageState) (p : PodE) : Bool :=
  p.usage.isSome && !(podMapsFound s p)

/-- Cpu usage summed over the metrics-reporting pods of namespace `k`. -/
def nsPodsCpu (k : String) : List PodE → ℚ
  | [] => 0
  | p :: rest =>
    (if p.ns = k then (match p.usage with | some u => u.1 | none => 0) else 0) + nsPodsCpu k rest

/-- Mem usage summed over the metrics-reporting pods of namespace `k`. -/
def nsPodsMem (k : String) : List PodE → ℚ
  | [] => 0
  | p :: rest =>
    (if p.ns = k then (match p.usage with | some u => u.2 | none => 0) else 0) + nsPodsMem k rest

theorem podMapsFound_congr (s s2 : K8sUsageState) (p : PodE)
    (hns : ∀ k, (lookupA k s2.nsResUsage).isSome = (lookupA k s.nsResUsage).isSome)
    (hnd : ∀ k, (lookupA k s2.nodes).isSome = (lookupA k s.nodes).isSome) :
    podMapsFound s2 p = podMapsFound s p := by
  unfold podMapsFound
  rw [hns]
  cases p.nodeName with
  | none => rfl
  | some nn => simp only [hnd]

theorem consolidatePods_capacity (pods : List PodE) (s : K8sUsageState) :
    (consolidatePods pods s).1.cpuCapacity = s.cpuCapacity ∧
    (consolidatePods pods s).1.memCapacity = s.memCapacity ∧
    (consolidatePods pods s).1.cpuAllocatable = s.cpuAllocatable ∧
    (consolidatePods pods s).1.memAllocatable = s.memAllocatable := by
  induction pods generalizing s with
  | nil => exact ⟨rfl, rfl, rfl, rfl⟩
  | cons p rest ih =>
    cases hu : p.usage with
    | none => simpa only [consolidatePods, hu] using ih s
    | some u =>
      cases hns : lookupA p.ns s.nsResUsage with
      | none => simp [consolidatePods, hu, hns]
      | some ru =>
        cases hnn : p.nodeName with
        | none => simp [consolidatePods, hu, hns, hnn]
        | some nn =>
          cases hnd : lookupA nn s.nodes with
          | none => simp [consolidatePods, hu, hns, hnn, hnd]
          | some nd => simpa only [consolidatePods, hu, hns, hnn, hnd] using ih _

theorem consolidatePods_good (pods : List PodE) (s : K8sUsageState)
    (hgood : ∀ p ∈ pods, p.usage ≠ none → podMapsFound s p = true) :
    (consolidatePods pods s).2 = none ∧
    ∀ k ru, lookupA k s.nsResUsage = some ru →
      lookupA k (consolidatePods pods s).1.nsResUsage =
        some ⟨ru.cpuUsage + nsPodsCpu k pods, ru.memUsage + nsPodsMem k pods⟩ := by
  induction pods generalizing s with
  | nil =>
    refine ⟨rfl, ?_⟩
    intro k ru h
    simpa [consolidatePods, nsPodsCpu, nsPodsMem] using h
  | cons p rest ih =>
    cases hu : p.usage with
    | none =>
      have hrest := ih s (fun q hq hq2 => hgood q (List.mem_cons_of_mem _ hq) hq2)
      refine ⟨by simpa only [consolidatePods, hu] using hrest.1, ?_⟩
      intro k ru h
      simp only [consolidatePods, hu]
      rw [hrest.2 k ru h]
      simp [nsPodsCpu, nsPodsMem, hu]
    | some u =>
      have hp := hgood p (List.mem_cons_self _ _) (by simp [hu])
      unfold podMapsFound at hp
      simp only [Bool.and_eq_true] at hp
      obtain ⟨hns1, hnd1⟩ := hp
      rcases Option.isSome_iff_exists.mp hns1 with ⟨ru0, hru0⟩
      cases hnn : p.nodeName with
      | none =>
        simp only [hnn] at hnd1
        exact (Bool.false_ne_true hnd1).elim
      | some nn =>
        simp only [hnn] at hnd1
        rcases Option.isSome_iff_exists.mp hnd1 with ⟨nd0, hnd0⟩
        have hgood3 : ∀ q ∈ rest, q.usage ≠ none →
            podMapsFound
              { s with
                nodes := updateA nn { nd0 with podsRunning := nd0.podsRunning ++ [p.name] } s.nodes,
                nsResUsage := updateA p.ns ⟨ru0.cpuUsage + u.1, ru0.memUsage + u.2⟩ s.nsResUsage,
                cpuUsedByPods := s.cpuUsedByPods + u.1,
                memUsedByPods := s.memUsedByPods + u.2 } q = true := by
          intro q hq hq2
          rw [podMapsFound_congr s _ q (fun k => lookupA_updateA_isSome k p.ns _ s.nsResUsage)
                (fun k => lookupA_updateA_isSome k nn _ s.nodes)]
          exact hgood q (List.mem_cons_of_mem _ hq) hq2
        have hrest := ih _ hgood3
        constructor
        · simpa only [consolidatePods, hu, hru0, hnn, hnd0] using hrest.1
        · intro k ru h
          simp only [consolidatePods, hu, hru0, hnn, hnd0]
          by_cases hk : k = p.ns
          · rw [hk] at h ⊢
            have hru : ru = ru0 := by
              rw [h] at hru0
              exact Option.some_inj.mp hru0
            subst hru
            have hlk : lookupA p.ns
                (updateA p.ns (⟨ru.cpuUsage + u.1, ru.memUsage + u.2⟩ : ResourceUsage) s.nsResUsage) =
                some ⟨ru.cpuUsage + u.1, ru.memUsage + u.2⟩ :=
              lookupA_updateA_eq p.ns _ s.nsResUsage (by rw [h]; rfl)
            rw [hrest.2 p.ns _ hlk]
            simp only [nsPodsCpu, nsPodsMem, hu, if_pos rfl, Option.some.injEq,
              ResourceUsage.mk.injEq, eq_self_iff_true, if_true]
            constructor <;> ring
          · have hlk : lookupA k
                (updateA p.ns (⟨ru0.cpuUsage + u.1, ru0.memUsage + u.2⟩ : ResourceUsage) s.nsResUsage) =
                some ru := by
              rw [lookupA_updateA_ne k p.ns _ s.nsResUsage hk]
              exact h
            rw [hrest.2 k _ hlk]
            simp only [nsPodsCpu, nsPodsMem, hu, if_neg (fun hh : p.ns = k => hk hh.symm),
              Option.some.injEq, ResourceUsage.mk.injEq]
            constructor <;> ring

theorem podBad_congr (s s2 : K8sUsageState) (p : PodE)
    (hns : ∀ k, (lookupA k s2.nsResUsage).isSome = (lookupA k s.nsResUsage).isSome)
    (hnd : ∀ k, (lookupA k s2.nodes).isSome = (lookupA k s.nodes).isSome) :
    podBad s2 p = podBad s p := by
  unfold podBad
  rw [podMapsFound_congr s s2 p hns hnd]

theorem consolidatePods_bad (pods : List PodE) (s : K8sUsageState)
    (hbad : ∃ p ∈ pods, podBad s p = true) :
    (consolidatePods pods s).2.isSome = true := by
  induction pods generalizing s with
  | nil =>
    rcases hbad with ⟨p, hp, _⟩
    cases hp
  | cons p rest ih =>
    cases hu : p.usage with
    | none =>
      have hbad2 : ∃ q ∈ rest, podBad s q = true := by
        rcases hbad with ⟨q, hq, hqb⟩
        rcases List.mem_cons.mp hq with rfl | hq2
        · exfalso
          unfold podBad at hqb
          rw [hu] at hqb
          simp at hqb
        · exact ⟨q, hq2, hqb⟩
      simpa only [consolidatePods, hu] using ih s hbad2
    | some u =>
      cases hns : lookupA p.ns s.nsResUsage with
      | none => simp [consolidatePods, hu, hns]
      | some ru =>
        cases hnn : p.nodeName with
        | none => simp [consolidatePods, hu, hns, hnn]
        | some nn =>
          cases hnd : lookupA nn s.nodes with
          | none => simp [consolidatePods, hu, hns, hnn, hnd]
          | some nd =>
            have hbad2 : ∃ q ∈ rest,
                podBad
                  { s with
                    nodes := updateA nn { nd with podsRunning := nd.podsRunning ++ [p.name] } s.nodes,
                    nsResUsage := updateA p.ns ⟨ru.cpuUsage + u.1, ru.memUsage + u.2⟩ s.nsResUsage,
                    cpuUsedByPods := s.cpuUsedByPods + u.1,
                    memUsedByPods := s.memUsedByPods + u.2 } q = true := by
              rcases hbad with ⟨q, hq, hqb⟩
              rcases List.mem_cons.mp hq with rfl | hq2
              · exfalso
                unfold podBad podMapsFound at hqb
                rw [hu, hnn] at hqb
                simp [hns, hnd] at hqb
              · refine ⟨q, hq2, ?_⟩
                rw [podBad_congr s _ q (fun k => lookupA_updateA_isSome k p.ns _ s.nsResUsage)
                      (fun k => lookupA_updateA_isSome k nn _ s.nodes)]
                exact hqb
            simpa only [consolidatePods, hu, hns, hnn, hnd] using ih _ hbad2

/-- C10: a metrics-reporting pod whose namespace is missing from the seeded
namespace map, or whose nodeName (possibly Python None) is missing from the
node map, makes `consolidate_ns_usage` raise KeyError: the loop stops there,
and the node capacity/allocatable totals, accumulated only after the pod
loop, stay at their initial values for that cycle. -/
theorem c10_consolidation_keyerror (s : K8sUsageState)
    (hbad : ∃ p ∈ s.pods, podBad s p = true) :
    (consolidate_ns_usage s).2.isSome = true ∧
    (consolidate_ns_usage s).1.cpuCapacity = s.cpuCapacity ∧
    (consolidate_ns_usage s).1.memCapacity = s.memCapacity ∧
    (consolidate_ns_usage s).1.cpuAllocatable = s.cpuAllocatable ∧
    (consolidate_ns_usage s).1.memAllocatable = s.memAllocatable := by
  have hbad0 : ∃ p ∈ s.pods,
      podBad { s with cpuUsedByPods := 0, memUsedByPods := 0 } p = true := by
    rcases hbad with ⟨p, hp, hpb⟩
    exact ⟨p, hp, by
      rw [podBad_congr s { s with cpuUsedByPods := 0, memUsedByPods := 0 } p
            (fun k => rfl) (fun k => rfl)]
      exact hpb⟩
  have herr := consolidatePods_bad s.pods _ hbad0
  have hcap := consolidatePods_capacity s.pods { s with cpuUsedByPods := 0, memUsedByPods := 0 }
  rcases hres : consolidatePods s.pods { s with cpuUsedByPods := 0, memUsedByPods := 0 }
    with ⟨s1, e⟩
  rw [hres] at herr hcap
  cases e with
  | none => simp at herr
  | some msg =>
    refine ⟨?_, ?_, ?_, ?_, ?_⟩ <;> simp only [consolidate_ns_usage, hres] <;>
      first
        | rfl
        | exact hcap.1
        | exact hcap.2.1
        | exact hcap.2.2.1
        | exact hcap.2.2.2

/-- C1 (amended): when every metrics-reporting pod has its namespace in the
seeded namespace map and its node in the node map, consolidation completes
and every namespace entry accumulates exactly the summed cpu/mem usage of
the metrics-reporting pods of that namespace. -/
theorem c1_ns_usage_sum_amended (s : K8sUsageState)
    (hgood : ∀ p ∈ s.pods, p.usage ≠ none → podMapsFound s p = true) :
    (consolidate_ns_usage s).2 = none ∧
    ∀ k ru, lookupA k s.nsResUsage = some ru →
      lookupA k (consolidate_ns_usage s).1.nsResUsage =
        some ⟨ru.cpuUsage + nsPodsCpu k s.pods, ru.memUsage + nsPodsMem k s.pods⟩ := by
  have hgood0 : ∀ p ∈ s.pods, p.usage ≠ none →
      podMapsFound { s with cpuUsedByPods := 0, memUsedByPods := 0 } p = true := by
    intro p hp hp2
    rw [podMapsFound_congr s { s with cpuUsedByPods := 0, memUsedByPods := 0 } p
          (fun k => rfl) (fun k => rfl)]
    exact hgood p hp hp2
  have hg := consolidatePods_good s.pods { s with cpuUsedByPods := 0, memUsedByPods := 0 } hgood0
  rcases hres : consolidatePods s.pods { s with cpuUsedByPods := 0, memUsedByPods := 0 }
    with ⟨s1, e⟩
  rw [hres] at hg
  cases e with
  | some msg => simp at hg
  | none =>
    constructor
    · simp only [consolidate_ns_usage, hres]
    · intro k ru h
      simp only [consolidate_ns_usage, hres]
      exact hg.2 k ru h

/-- A healthy node for concrete snapshots. -/
def exNode0 : NodeE :=
  { name := "n1", id := "nid1", state := "Ready", message := "",
    cpuCapacity := 4, cpuAllocatable := 4, cpuUsage := 0,
    memCapacity := 8, memAllocatable := 8, memUsage := 0,
    containerRuntime := "docker", podsRunning := [], podsNotRunning := [] }

/-- A metrics-reporting pod scheduled on a node absent from the node map. -/
def exPodMissingNode : PodE :=
  { name := "p1.a", ns := "a", id := "pid1", nodeName := some "missing-node",
    phase := "Running", state := "Ready", usage := some (1, 1) }

/-- A metrics-reporting pod on the known node n1. -/
def exPodOnN1 : PodE :=
  { name := "p2.a", ns := "a", id := "pid2", nodeName := some "n1",
    phase := "Running", state := "Ready", usage := some (2, 3) }

/-- Snapshot for the C1 counterexample: namespace a seeded at zero, one pod
on a missing node followed by one pod on a known node. -/
def exBadNodeState : K8sUsageState :=
  { nodes := [("n1", exNode0)], pods := [exPodMissingNode, exPodOnN1],
    nsResUsage := [("a", ⟨0, 0⟩)],
    cpuUsedByPods := 0, memUsedByPods := 0, cpuCapacity := 0, memCapacity := 0,
    cpuAllocatable := 0, memAllocatable := 0 }

/-- C1 counterexample: the pod on the missing node is NOT skipped - the loop
raises KeyError after having already added that pod's usage, so consolidation
of the remaining pods is aborted and the namespace total is 1, not the
3 = 1 + 2 that summing the metrics-reporting pods of namespace a gives. -/
theorem c1_counterexample :
    (consolidate_ns_usage exBadNodeState).2 = some "KeyError" ∧
    lookupA "a" (consolidate_ns_usage exBadNodeState).1.nsResUsage = some ⟨1, 1⟩ ∧
    nsPodsCpu "a" exBadNodeState.pods = 3 ∧
    (1 : ℚ) ≠ 3 := by
  refine ⟨?_, ?_, ?_, by norm_num⟩ <;>
    (simp [consolidate_ns_usage, consolidatePods, exBadNodeState, exPodMissingNode, exPodOnN1,
       exNode0, lookupA, updateA, nsPodsCpu] <;> norm_num)

/-- Snapshot for the C1 witness: all metrics-reporting pods resolve. -/
def exGoodState : K8sUsageState :=
  { nodes := [("n1", exNode0)], pods := [exPodOnN1,
      { name := "p3.b", ns := "b", id := "pid3", nodeName := some "n1",
        phase := "Running", state := "Ready", usage := some (5, 7) },
      { name := "p4.a", ns := "a", id := "pid4", nodeName := none,
        phase := "Pending", state := "PodNotScheduled", usage := none }],
    nsResUsage := [("a", ⟨0, 0⟩), ("b", ⟨0, 0⟩)],
    cpuUsedByPods := 0, memUsedByPods := 0, cpuCapacity := 0, memCapacity := 0,
    cpuAllocatable := 0, memAllocatable := 0 }

/-- C1 witness: on a snapshot where every metrics-reporting pod resolves,
consolidation completes and namespace a gets exactly the summed usage of its
metrics-reporting pods. -/
theorem c1_witness :
    (consolidate_ns_usage exGoodState).2 = none ∧
    lookupA "a" (consolidate_ns_usage exGoodState).1.nsResUsage =
      some ⟨0 + nsPodsCpu "a" exGoodState.pods, 0 + nsPodsMem "a" exGoodState.pods⟩ := by
  have h := c1_ns_usage_sum_amended exGoodState (by decide)
  exact ⟨h.1, h.2 "a" ⟨0, 0⟩ (by decide)⟩

/-- A metrics-reporting pod in a namespace that was never seeded (as after a
failed namespace-listing fetch). -/
def exPodOrphanNs : PodE :=
  { name := "p9.ghost", ns := "ghost", id := "pid9", nodeName := some "n1",
    phase := "Running", state := "Ready", usage := some (1, 2) }

/-- An unscheduled (nodeName None) pod that nevertheless reports metrics. -/
def exPodNoNode : PodE :=
  { name := "p8.a", ns := "a", id := "pid8", nodeName := none,
    phase := "Pending", state := "PodNotScheduled", usage := some (1, 2) }

/-- Snapshot for the C10 witness: both failure modes are present. -/
def exC10State : K8sUsageState :=
  { nodes := [("n1", exNode0)], pods := [exPodOrphanNs, exPodNoNode],
    nsResUsage := [("a", ⟨0, 0⟩)],
    cpuUsedByPods := 0, memUsedByPods := 0, cpuCapacity := 5, memCapacity := 6,
    cpuAllocatable := 3, memAllocatable := 4 }

/-- C10 witness: with an unseeded namespace (and an unscheduled pod) in the
pod list, consolidation raises and the cluster capacity/allocatable totals
stay at their pre-cycle values. -/
theorem c10_witness :
    (consolidate_ns_usage exC10State).2.isSome = true ∧
    (consolidate_ns_usage exC10State).1.cpuCapacity = exC10State.cpuCapacity ∧
    (consolidate_ns_usage exC10State).1.memCapacity = exC10State.memCapacity ∧
    (consolidate_ns_usage exC10State).1.cpuAllocatable = exC10State.cpuAllocatable ∧
    (consolidate_ns_usage exC10State).1.memAllocatable = exC10State.memAllocatable :=
  c10_consolidation_keyerror exC10State (by decide)

/-! ## Histogram analytics and cost models (backend.py lines 557-597) -/

/-- `KOA_CONFIG.db_billing_hourly_rate` (backend.py line 40). -/
def db_billing_hourly_rate : String := ".billing-hourly-rate"

/-- `KOA_CONFIG.db_non_allocatable` (backend.py line 39). -/
def db_non_allocatable : String := "non-allocatable"

/-- The accumulation loop of `dump_histogram_analytics` (lines 563-578)
projected on one resource and one date group: for each rrd database, its
summed usage for that date group is kept when strictly positive
(`usage_per_type_date[res][date_key][db]`). -/
def usageForDate (dbs : List (String × List (String × ℚ))) (d : String) :
    List (String × ℚ) :=
  dbs.filterMap (fun e =>
    match lookupA d e.2 with
    | some u => if 0 < u then some (e.1, u) else none
    | none => none)

/-- `sum_usage_per_type_date[res][date_key]` (lines 575-578): the same
positive usages summed over every database except the billing-rate one. -/
def sumUsageForDate (dbs : List (String × List (String × ℚ))) (d : String) : ℚ :=
  (((usageForDate dbs d).filter (fun e => e.1 != db_billing_hourly_rate)).map
    (fun e => e.2)).sum

/-- The cost transform for one (db, date) pair (lines 584-589): plain rounded
usage under the default model; 100 * usage/sum under RATIO; ratio times the
billing entry of the SAME date bundle under CHARGE_BACK, where the billing
entry is read with a bare dict access - missing means a raised KeyError. -/
def costOfEntry (model : String) (bundle : List (String × ℚ)) (su : ℚ)
    (e : String × ℚ) : Except String ℚ :=
  let cost0 := round6 e.2
  if model = "RATIO" ∨ model = "CHARGE_BACK" then
    let ratio := e.2 / su
    if model = "CHARGE_BACK" then
      match lookupA db_billing_hourly_rate bundle with
      | none => .error "KeyError"
      | some rate => .ok (round6 (ratio * rate))
    else .ok (round6 (100 * ratio))
  else .ok cost0

/-- Error-propagating map: the first raised exception aborts the loop. -/
def mapME {α β : Type} (f : α → Except String β) : List α → Except String (List β)
  | [] => .ok []
  | a :: l =>
    match f a with
    | .error e => .error e
    | .ok b =>
      match mapME f l with
      | .error e => .error e
      | .ok bs => .ok (b :: bs)

/-- The publication loop of `dump_histogram_analytics` (lines 580-592) for a
fixed resource and date group: billing-rate entries are skipped, every other
entry gets its cost from `costOfEntry`. -/
def histogramCostsForDate (model : String) (dbs : List (String × List (String × ℚ)))
    (d : String) : Except String (List (String × ℚ)) :=
  let bundle := usageForDate dbs d
  let su := sumUsageForDate dbs d
  mapME (fun e => (costOfEntry model bundle su e).map (fun c => (e.1, c)))
    (bundle.filter (fun e => e.1 != db_billing_hourly_rate))

theorem mapME_ok {α β : Type} (f : α → Except String β) (g : α → β) (l : List α)
    (h : ∀ a ∈ l, f a = .ok (g a)) : mapME f l = .ok (l.map g) := by
  induction l with
  | nil => rfl
  | cons a t ih =>
    simp only [mapME, h a (List.mem_cons_self a t), ih (fun b hb => h b (List.mem_cons_of_mem a hb)),
      List.map_cons]

theorem sum_round6_close (l : List ℚ) :
    |(l.map round6).sum - l.sum| ≤ l.length * (1 / 2000000) := by
  induction l with
  | nil => simp
  | cons a t ih =>
    simp only [List.map_cons, List.sum_cons, List.length_cons]
    have h1 := round6_close a
    calc |round6 a + (t.map round6).sum - (a + t.sum)|
        = |(round6 a - a) + ((t.map round6).sum - t.sum)| := by ring_nf
      _ ≤ |round6 a - a| + |(t.map round6).sum - t.sum| := abs_add _ _
      _ ≤ 1 / 2000000 + t.length * (1 / 2000000) := add_le_add h1 ih
      _ = (((t.length + 1 : ℕ)) : ℚ) * (1 / 2000000) := by push_cast; ring

/-- C2: under the Ratio cost model, for a date group whose billing-free usage
sum is strictly positive, every published cost is 100 * (usage / sum) rounded
to 6 decimals, and the costs over the published (non-billing) entities sum to
100 up to the accumulated rounding tolerance. -/
theorem c2_ratio_cost_sum (dbs : List (String × List (String × ℚ))) (d : String)
    (hS : 0 < sumUsageForDate dbs d) :
    ∃ l, histogramCostsForDate "RATIO" dbs d = .ok l ∧
      (∀ e ∈ l, ∃ u, (e.1, u) ∈ usageForDate dbs d ∧ e.1 ≠ db_billing_hourly_rate ∧
        e.2 = round6 (100 * (u / sumUsageForDate dbs d))) ∧
      |(l.map (fun e => e.2)).sum - 100| ≤ l.length * (1 / 2000000) := by
  have hf : ∀ e ∈ (usageForDate dbs d).filter (fun e => e.1 != db_billing_hourly_rate),
      (fun e : String × ℚ =>
        (costOfEntry "RATIO" (usageForDate dbs d) (sumUsageForDate dbs d) e).map
          (fun c => (e.1, c))) e =
        .ok ((fun e : String × ℚ =>
          (e.1, round6 (100 * (e.2 / sumUsageForDate dbs d)))) e) := by
    intro e _
    simp [costOfEntry, Except.map]
  have heval : histogramCostsForDate "RATIO" dbs d =
      .ok (((usageForDate dbs d).filter (fun e => e.1 != db_billing_hourly_rate)).map
        (fun e => (e.1, round6 (100 * (e.2 / sumUsageForDate dbs d))))) := by
    unfold histogramCostsForDate
    exact mapME_ok _ _ _ hf
  refine ⟨_, heval, ?_, ?_⟩
  · intro e he
    rw [List.mem_map] at he
    rcases he with ⟨a, ha, rfl⟩
    rw [List.mem_filter] at ha
    refine ⟨a.2, ha.1, ?_, rfl⟩
    simpa using ha.2
  · have h1 : ((((usageForDate dbs d).filter (fun e => e.1 != db_billing_hourly_rate)).map
        (fun e => (e.1, round6 (100 * (e.2 / sumUsageForDate dbs d))))).map
          (fun e => e.2)) =
        (((usageForDate dbs d).filter (fun e => e.1 != db_billing_hourly_rate)).map
          (fun e => 100 * (e.2 / sumUsageForDate dbs d))).map round6 := by
      simp only [List.map_map]
      rfl
    have hne : sumUsageForDate dbs d ≠ 0 := ne_of_gt hS
    have h2 : ((((usageForDate dbs d).filter (fun e => e.1 != db_billing_hourly_rate)).map
        (fun e => 100 * (e.2 / sumUsageForDate dbs d)))).sum = 100 := by
      have hcg : (((usageForDate dbs d).filter (fun e => e.1 != db_billing_hourly_rate)).map
          (fun e => 100 * (e.2 / sumUsageForDate dbs d))) =
          (((usageForDate dbs d).filter (fun e => e.1 != db_billing_hourly_rate)).map
            (fun e => (100 / sumUsageForDate dbs d) * e.2)) := by
        refine List.map_congr_left ?_
        intro a _
        ring
      rw [hcg, List.sum_map_mul_left]
      have hsum : ((((usageForDate dbs d).filter
          (fun e => e.1 != db_billing_hourly_rate)).map (fun e => e.2))).sum =
          sumUsageForDate dbs d := rfl
      rw [hsum]
      field_simp
    rw [h1, List.length_map]
    have hlen : (((usageForDate dbs d).filter (fun e => e.1 != db_billing_hourly_rate)).map
        (fun e => 100 * (e.2 / sumUsageForDate dbs d))).length =
        ((usageForDate dbs d).filter (fun e => e.1 != db_billing_hourly_rate)).length :=
      List.length_map _ _
    have hfinal := sum_round6_close
      (((usageForDate dbs d).filter (fun e => e.1 != db_billing_hourly_rate)).map
        (fun e => 100 * (e.2 / sumUsageForDate dbs d)))
    rw [h2, hlen] at hfinal
    exact hfinal

/-- Two namespaces with positive usage for one date group. -/
def exHistDbs : List (String × List (String × ℚ)) :=
  [("ns1", [("01 Jan", 3)]), ("ns2", [("01 Jan", 1)])]

/-- C2 witness: on a concrete bundle with billing-free sum 4 > 0, the Ratio
published costs are the rounded percentages and sum to 100 within tolerance. -/
theorem c2_witness :
    0 < sumUsageForDate exHistDbs "01 Jan" ∧
    ∃ l, histogramCostsForDate "RATIO" exHistDbs "01 Jan" = .ok l ∧
      (∀ e ∈ l, ∃ u, (e.1, u) ∈ usageForDate exHistDbs "01 Jan" ∧
        e.1 ≠ db_billing_hourly_rate ∧
        e.2 = round6 (100 * (u / sumUsageForDate exHistDbs "01 Jan"))) ∧
      |(l.map (fun e => e.2)).sum - 100| ≤ l.length * (1 / 2000000) := by
  have hS : 0 < sumUsageForDate exHistDbs "01 Jan" := by
    norm_num +decide [sumUsageForDate, usageForDate, lookupA, exHistDbs,
      db_billing_hourly_rate, List.filterMap_cons, List.filter_cons]
  exact ⟨hS, c2_ratio_cost_sum exHistDbs "01 Jan" hS⟩

/-- C3 amended: under Charge-Back, when the billing-rate entity has a sample
for the date group, every published cost is (usage / billing-free sum) times
that rate, rounded to 6 decimals; when the billing-rate entity has NO sample
for a date group that has some non-billing entity, the bare dict access at
backend.py line 589 raises KeyError - the date is not silently skipped, the
whole histogram dump aborts. -/
theorem c3_chargeback_amended (dbs : List (String × List (String × ℚ))) (d : String) :
    (∀ rate, lookupA db_billing_hourly_rate (usageForDate dbs d) = some rate →
      ∃ l, histogramCostsForDate "CHARGE_BACK" dbs d = .ok l ∧
        ∀ e ∈ l, ∃ u, (e.1, u) ∈ usageForDate dbs d ∧ e.1 ≠ db_billing_hourly_rate ∧
          e.2 = round6 ((u / sumUsageForDate dbs d) * rate)) ∧
    (lookupA db_billing_hourly_rate (usageForDate dbs d) = none →
      ∀ e0 ∈ usageForDate dbs d, e0.1 ≠ db_billing_hourly_rate →
      ∃ msg, histogramCostsForDate "CHARGE_BACK" dbs d = .error msg) := by
  constructor
  · intro rate hrate
    have hf : ∀ e ∈ (usageForDate dbs d).filter (fun e => e.1 != db_billing_hourly_rate),
        (fun e : String × ℚ =>
          (costOfEntry "CHARGE_BACK" (usageForDate dbs d) (sumUsageForDate dbs d) e).map
            (fun c => (e.1, c))) e =
          .ok ((fun e : String × ℚ =>
            (e.1, round6 ((e.2 / sumUsageForDate dbs d) * rate))) e) := by
      intro e _
      simp [costOfEntry, hrate, Except.map]
    have heval : histogramCostsForDate "CHARGE_BACK" dbs d =
        .ok (((usageForDate dbs d).filter (fun e => e.1 != db_billing_hourly_rate)).map
          (fun e => (e.1, round6 ((e.2 / sumUsageForDate dbs d) * rate)))) := by
      unfold histogramCostsForDate
      exact mapME_ok _ _ _ hf
    refine ⟨_, heval, ?_⟩
    intro e he
    rw [List.mem_map] at he
    rcases he with ⟨a, ha, rfl⟩
    rw [List.mem_filter] at ha
    refine ⟨a.2, ha.1, ?_, rfl⟩
    simpa using ha.2
  · intro hnone e0 he0 hne0
    have hmem : e0 ∈ (usageForDate dbs d).filter (fun e => e.1 != db_billing_hourly_rate) := by
      rw [List.mem_filter]
      exact ⟨he0, by simpa using hne0⟩
    rcases hsplit : (usageForDate dbs d).filter (fun e => e.1 != db_billing_hourly_rate) with
      _ | ⟨a, t⟩
    · rw [hsplit] at hmem
      cases hmem
    · refine ⟨"KeyError", ?_⟩
      have hdef : histogramCostsForDate "CHARGE_BACK" dbs d =
          mapME (fun e =>
            (costOfEntry "CHARGE_BACK" (usageForDate dbs d) (sumUsageForDate dbs d) e).map
              (fun c => (e.1, c)))
            ((usageForDate dbs d).filter (fun e => e.1 != db_billing_hourly_rate)) := rfl
      rw [hdef, hsplit]
      have hfa : costOfEntry "CHARGE_BACK" (usageForDate dbs d) (sumUsageForDate dbs d) a =
          .error "KeyError" := by
        simp [costOfEntry, hnone]
      simp [mapME, hfa, Except.map]

/-- One namespace with positive usage and no billing-rate sample at all. -/
def exHistNoBilling : List (String × List (String × ℚ)) := [("ns1", [("01 Jan", 5)])]

/-- C3 counterexample: with a date group carrying namespace usage but no
billing-rate sample, the Charge-Back cost computation raises KeyError instead
of skipping the date as the claim states. -/
theorem c3_counterexample :
    histogramCostsForDate "CHARGE_BACK" exHistNoBilling "01 Jan" = .error "KeyError" := by
  norm_num +decide [histogramCostsForDate, usageForDate, sumUsageForDate, costOfEntry, mapME,
    lookupA, exHistNoBilling, db_billing_hourly_rate, Except.map, List.filterMap_cons,
    List.filter_cons]

/-- A bundle with a billing-rate sample of 10 and two namespaces. -/
def exHistCB : List (String × List (String × ℚ)) :=
  [(".billing-hourly-rate", [("01 Jan", 10)]), ("ns1", [("01 Jan", 3)]),
   ("ns2", [("01 Jan", 1)])]

/-- C3 witness: with a billing-rate sample present, each published cost is
the usage ratio times that rate. -/
theorem c3_witness :
    ∃ l, histogramCostsForDate "CHARGE_BACK" exHistCB "01 Jan" = .ok l ∧
      ∀ e ∈ l, ∃ u, (e.1, u) ∈ usageForDate exHistCB "01 Jan" ∧
        e.1 ≠ db_billing_hourly_rate ∧
        e.2 = round6 ((u / sumUsageForDate exHistCB "01 Jan") * 10) :=
  (c3_chargeback_amended exHistCB "01 Jan").1 10 (by
    norm_num +decide [usageForDate, lookupA, exHistCB, db_billing_hourly_rate,
      List.filterMap_cons])

/-! ## Trend analytics (backend.py lines 472-509) -/

/-- The row loop of `dump_trend_data` (lines 486-502): each fetched cdp row
carries an optional cpu and mem value (None models an rrd gap, whose float()
conversion raises and is swallowed by the bare except, skipping the row);
a kept row contributes `round(100*v, 6)/100` per channel. -/
def trendPoints (samples : List (Option ℚ × Option ℚ)) : List (ℚ × ℚ) :=
  samples.filterMap (fun cdp =>
    match cdp with
    | (some c, some m) => some (round6 (100 * c) / 100, round6 (100 * m) / 100)
    | _ => none)

/-- `Rrd.dump_trend_data` (lines 472-509) with the rrd fetch abstracted as a
function from the resolution step (seconds) to the fetched rows: query at
3600s; when NOT both channel sums are strictly positive, retry exactly once
at 300s (`step_in=PERIOD_5_MINS_SEC`); a failing retry returns empty output. -/
def dump_trend_data (fetch : ℕ → List (Option ℚ × Option ℚ)) : List ℚ × List ℚ :=
  let pts := trendPoints (fetch 3600)
  if 0 < (pts.map (fun e => e.1)).sum ∧ 0 < (pts.map (fun e => e.2)).sum then
    (pts.map (fun e => e.1), pts.map (fun e => e.2))
  else
    let pts5 := trendPoints (fetch 300)
    if 0 < (pts5.map (fun e => e.1)).sum ∧ 0 < (pts5.map (fun e => e.2)).sum then
      (pts5.map (fun e => e.1), pts5.map (fun e => e.2))
    else ([], [])

/-- A fetch whose 1-hour range has a positive cpu aggregate but an all-zero
mem aggregate, and whose 5-minute range is empty. -/
def exFetchCpuOnly : ℕ → List (Option ℚ × Option ℚ) :=
  fun step => if step = 3600 then [(some 1, some 0)] else []

theorem round6_int (n : ℤ) : round6 (n : ℚ) = n := by
  unfold round6
  rw [show ((n : ℚ) * 1000000) = ((n * 1000000 : ℤ) : ℚ) by push_cast; ring, round_intCast]
  push_cast
  field_simp

/-- C7 counterexample: the 1-hour query yields a non-zero cpu aggregate
(sum 1), so by the claim no retry should happen and the 1-hour data should be
returned; the code instead retries (because the MEM sum is not positive) and,
the 5-minute range being empty, returns empty output, discarding the cpu data. -/
theorem c7_counterexample :
    dump_trend_data exFetchCpuOnly = ([], []) ∧
    (trendPoints (exFetchCpuOnly 3600)).map (fun e => e.1) = [1] ∧
    ((trendPoints (exFetchCpuOnly 3600)).map (fun e => e.1)).sum = 1 ∧
    (1 : ℚ) ≠ 0 := by
  have hpts : trendPoints (exFetchCpuOnly 3600) = [(1, 0)] := by
    simp +decide [trendPoints, exFetchCpuOnly, List.filterMap_cons]
    norm_num [round6, round_eq]
  have hpts5 : trendPoints (exFetchCpuOnly 300) = [] := by
    simp +decide [trendPoints, exFetchCpuOnly]
  refine ⟨?_, by rw [hpts]; simp, by rw [hpts]; simp, by norm_num⟩
  unfold dump_trend_data
  rw [hpts, hpts5]
  norm_num

/-- C7 amended: the trend dump queries at 1-hour resolution and retries at
5-minute resolution exactly once, but the retry condition is NOT "no non-zero
aggregate usage at all": it retries whenever the cpu sum and the mem sum of
the 1-hour samples are not BOTH strictly positive (so also when only one
resource aggregates to zero, discarding the other's data). When the 1-hour
test fails and the 5-minute sums are both positive, the output is the
non-empty 5-minute data; when both attempts fail the test, the output is
empty. -/
theorem c7_trend_fallback_amended (fetch : ℕ → List (Option ℚ × Option ℚ)) :
    ((0 < ((trendPoints (fetch 3600)).map (fun e => e.1)).sum ∧
      0 < ((trendPoints (fetch 3600)).map (fun e => e.2)).sum) →
      dump_trend_data fetch =
        ((trendPoints (fetch 3600)).map (fun e => e.1),
         (trendPoints (fetch 3600)).map (fun e => e.2))) ∧
    (¬(0 < ((trendPoints (fetch 3600)).map (fun e => e.1)).sum ∧
        0 < ((trendPoints (fetch 3600)).map (fun e => e.2)).sum) →
      (0 < ((trendPoints (fetch 300)).map (fun e => e.1)).sum ∧
        0 < ((trendPoints (fetch 300)).map (fun e => e.2)).sum) →
      dump_trend_data fetch =
        ((trendPoints (fetch 300)).map (fun e => e.1),
         (trendPoints (fetch 300)).map (fun e => e.2)) ∧
      (trendPoints (fetch 300)).map (fun e => e.1) ≠ []) ∧
    (¬(0 < ((trendPoints (fetch 3600)).map (fun e => e.1)).sum ∧
        0 < ((trendPoints (fetch 3600)).map (fun e => e.2)).sum) →
      ¬(0 < ((trendPoints (fetch 300)).map (fun e => e.1)).sum ∧
        0 < ((trendPoints (fetch 300)).map (fun e => e.2)).sum) →
      dump_trend_data fetch = ([], [])) := by
  refine ⟨?_, ?_, ?_⟩
  · intro h1
    unfold dump_trend_data
    rw [if_pos h1]
  · intro h1 h5
    constructor
    · unfold dump_trend_data
      rw [if_neg h1, if_pos h5]
    · intro hnil
      rw [hnil] at h5
      simp at h5
  · intro h1 h5
    unfold dump_trend_data
    rw [if_neg h1, if_neg h5]

/-- A fetch with an all-zero 1-hour range and a positive 5-minute range. -/
def exFetchFineOnly : ℕ → List (Option ℚ × Option ℚ) :=
  fun step => if step = 300 then [(some 1, some 2)] else [(some 0, some 0)]

/-- C7 witness: an entity with zero-valued 1-hour samples but non-zero
5-minute samples yields the non-empty 5-minute output. -/
theorem c7_witness :
    dump_trend_data exFetchFineOnly =
      ((trendPoints (exFetchFineOnly 300)).map (fun e => e.1),
       (trendPoints (exFetchFineOnly 300)).map (fun e => e.2)) ∧
    (trendPoints (exFetchFineOnly 300)).map (fun e => e.1) ≠ [] := by
  have hp1 : trendPoints (exFetchFineOnly 3600) = [(0, 0)] := by
    simp +decide [trendPoints, exFetchFineOnly, List.filterMap_cons]
    norm_num [round6, round_eq]
  have hp5 : trendPoints (exFetchFineOnly 300) = [(1, 2)] := by
    simp +decide [trendPoints, exFetchFineOnly, List.filterMap_cons]
    norm_num [round6, round_eq]
  exact (c7_trend_fallback_amended exFetchFineOnly).2.1
    (by rw [hp1]; simp)
    (by rw [hp5]; constructor <;> norm_num)

/-! ## Sampler cycle appends (backend.py lines 624-653) -/

/-- `compute_usage_percent_ratio` (backend.py lines 426-427). -/
def compute_usage_percent_ratio (value total : ℚ) : ℚ := round6 (100 * value / total)

/-- `Rrd.add_sample` (backend.py lines 461-467): both channels are rounded to
6 decimals before being written to the series named `dbname`. -/
def add_sample (dbname : String) (cpu_usage mem_usage : ℚ) : String × ℚ × ℚ :=
  (dbname, round6 cpu_usage, round6 mem_usage)

/-- The series appends of one `create_metrics_puller` cycle (backend.py lines
635-652): nothing is appended unless both cluster capacity totals are
strictly positive; inside the guard the non-allocatable percentage pair, the
billing rate (as both channels), and one percentage pair per namespace are
appended, in that order. -/
def puller_cycle_samples (u : K8sUsageState) (billing_rate : ℚ) :
    List (String × ℚ × ℚ) :=
  if 0 < u.cpuCapacity ∧ 0 < u.memCapacity then
    add_sample db_non_allocatable
        (compute_usage_percent_ratio (u.cpuCapacity - u.cpuAllocatable) u.cpuCapacity)
        (compute_usage_percent_ratio (u.memCapacity - u.memAllocatable) u.memCapacity) ::
      add_sample db_billing_hourly_rate billing_rate billing_rate ::
      u.nsResUsage.map (fun e =>
        add_sample e.1 (compute_usage_percent_ratio e.2.cpuUsage u.cpuCapacity)
          (compute_usage_percent_ratio e.2.memUsage u.memCapacity))
  else []

/-- C8: when both cluster capacity totals are strictly positive, the cycle
appends exactly: the non-allocatable entity with 100*(capacity-allocatable)/
capacity rounded to 6 decimals per resource, the billing-rate entity with the
configured hourly rate on both channels (rounded to 6 decimals by add_sample,
as every appended value is), and one entry per namespace with
100*usage/clusterCapacity rounded to 6 decimals per resource; when a
capacity total is not positive, no series append occurs. -/
theorem c8_puller_cycle (u : K8sUsageState) (rate : ℚ) :
    (0 < u.cpuCapacity → 0 < u.memCapacity →
      puller_cycle_samples u rate =
        (db_non_allocatable,
          round6 (100 * (u.cpuCapacity - u.cpuAllocatable) / u.cpuCapacity),
          round6 (100 * (u.memCapacity - u.memAllocatable) / u.memCapacity)) ::
        (db_billing_hourly_rate, round6 rate, round6 rate) ::
        u.nsResUsage.map (fun e =>
          (e.1, round6 (100 * e.2.cpuUsage / u.cpuCapacity),
            round6 (100 * e.2.memUsage / u.memCapacity)))) ∧
    (¬(0 < u.cpuCapacity ∧ 0 < u.memCapacity) → puller_cycle_samples u rate = []) := by
  constructor
  · intro hc hm
    unfold puller_cycle_samples add_sample compute_usage_percent_ratio
    rw [if_pos ⟨hc, hm⟩]
    simp only [round6_idem]
  · intro h
    unfold puller_cycle_samples
    rw [if_neg h]

/-- A consolidated snapshot with positive capacity totals and one namespace. -/
def exPullerState : K8sUsageState :=
  { nodes := [], pods := [], nsResUsage := [("a", ⟨1, 2⟩)],
    cpuUsedByPods := 0, memUsedByPods := 0, cpuCapacity := 4, memCapacity := 8,
    cpuAllocatable := 3, memAllocatable := 6 }

/-- C8 witness: the appends of a cycle on a concrete positive snapshot. -/
theorem c8_witness :
    puller_cycle_samples exPullerState (5 / 2) =
      (db_non_allocatable,
        round6 (100 * (exPullerState.cpuCapacity - exPullerState.cpuAllocatable) /
          exPullerState.cpuCapacity),
        round6 (100 * (exPullerState.memCapacity - exPullerState.memAllocatable) /
          exPullerState.memCapacity)) ::
      (db_billing_hourly_rate, round6 (5 / 2), round6 (5 / 2)) ::
      exPullerState.nsResUsage.map (fun e =>
        (e.1, round6 (100 * e.2.cpuUsage / exPullerState.cpuCapacity),
          round6 (100 * e.2.memUsage / exPullerState.memCapacity))) :=
  (c8_puller_cycle exPullerState (5 / 2)).1 (by norm_num [exPullerState])
    (by norm_num [exPullerState])
